import Mathlib

/-!
Verification of the G.722 codec binding layer of this repository.

The files under `src/native` are binding glue: an emscripten shim
(`g722_wasm_shim.c`) and a Node N-API addon (`g722_addon.cpp`) around the
external libg722 codec (`g722_encoder.h` / `g722_decoder.h`, not present in
this tree).  The shim and addon logic below is translated directly from those
sources; the codec core itself (contexts, band coders, filter bank, bit
packing, `g722_encoder_new`, `g722_encode`, `g722_decoder_new`, `g722_decode`)
is modelled from the specification, as indicated on each definition.
-/

namespace G722

/-- Modelled from the spec: clamping helper — all core arithmetic is
saturating/clamped, never undefined for any representable input (§4.1). -/
def clampInt (lo hi x : Int) : Int := max lo (min hi x)

/-- Modelled from the spec: the scale factor is always clamped to a bounded
integer range (§3, BandState invariant). -/
def clampScale (x : Int) : Int := clampInt 0 22528 x

/-- Modelled from the spec: 16-bit linear PCM samples; out-of-range values are
clamped, not rejected (§1, §4.1). -/
def clampSample (x : Int) : Int := clampInt (-32768) 32767 x

/-- Sign of an integer, used by the gradient-style predictor adaptation. -/
def sgn (x : Int) : Int := if x > 0 then 1 else if x < 0 then -1 else 0

/-- First element of a history buffer (0 when empty). -/
def hd0 (l : List Int) : Int := l.headD 0

/-- Second element of a history buffer (0 when absent). -/
def hd1 (l : List Int) : Int := (l.drop 1).headD 0

/-- FIR correlation of a delay line against a coefficient list. -/
def dotProd : List Int → List Int → Int
  | a :: as, b :: bs => a * b + dotProd as bs
  | _, _ => 0

/-- Modelled from the spec: `BandState` of the missing codec core — adaptive
predictor coefficients (pole order 2, zero order 6 for the low band / 2 for
the high band), short histories of reconstructed values and quantized
differences sized to the predictor order, and a logarithmic scale factor
(§3). -/
structure BandState where
  scaleFactor : Int
  pole1 : Int
  pole2 : Int
  zeroCoeffs : List Int
  reconHistory : List Int
  diffHistory : List Int
deriving DecidableEq

/-- Modelled from the spec: `FilterBankState` of the missing codec core — a
fixed-length delay line of recent samples, shifted by one sample pair per
processing step (§3). -/
structure FilterBankState where
  delayLine : List Int
deriving DecidableEq

/-- Modelled from the spec: the encoder `CodecContext` of the missing codec
core — operating mode as bits-per-sample of the low band (6, 5 or 4), a
packing-option value, two `BandState` records and one `FilterBankState`
(§3). -/
structure EncCtx where
  bitsPerLowSample : Nat
  packingOptions : Int
  lowBand : BandState
  highBand : BandState
  filterBank : FilterBankState
deriving DecidableEq

/-- Modelled from the spec: the decoder `CodecContext` of the missing codec
core; encode and decode each have their own context type (§3). -/
structure DecCtx where
  bitsPerLowSample : Nat
  packingOptions : Int
  lowBand : BandState
  highBand : BandState
  filterBank : FilterBankState
deriving DecidableEq

/-- Modelled from the spec: fresh band state with histories sized to the
predictor order (§3). -/
def initBandState (zeroOrder : Nat) : BandState :=
  { scaleFactor := 0
    pole1 := 0
    pole2 := 0
    zeroCoeffs := List.replicate zeroOrder 0
    reconHistory := List.replicate zeroOrder 0
    diffHistory := List.replicate zeroOrder 0 }

/-- Modelled from the spec: the fixed symmetric even-length FIR coefficients
of the missing quadrature-mirror filter bank (§3, §4.2). -/
def qmfCoeffs : List Int :=
  [3, -11, 12, 32, -210, 951, 951, -210, 32, 12, -11, 3]

/-- Negate every other coefficient: the difference (high-band) response of the
filter bank (§4.2). -/
def alternate : List Int → List Int
  | a :: b :: rest => a :: (-b) :: alternate rest
  | l => l

/-- Modelled from the spec: `analyze` of the missing filter bank — append the
new input pair, discard the oldest pair, compute a sum (low-band) and a
difference (high-band) FIR correlation over the delay line, scaled to keep
energy representable (§4.2). -/
def qmfAnalyze (fb : FilterBankState) (x0 x1 : Int) : Int × Int × FilterBankState :=
  let d := fb.delayLine.drop 2 ++ [x0, x1]
  let lo := clampSample (dotProd d qmfCoeffs / 4096)
  let hi := clampSample (dotProd d (alternate qmfCoeffs) / 4096)
  (lo, hi, ⟨d⟩)

/-- Modelled from the spec: `synthesize` of the missing filter bank — the
mirror of `qmfAnalyze`, merging reconstructed band values back into a pair of
PCM samples (§4.2). -/
def qmfSynthesize (fb : FilterBankState) (lo hi : Int) : Int × Int × FilterBankState :=
  let d := fb.delayLine.drop 2 ++ [lo + hi, lo - hi]
  let s0 := clampSample (dotProd d qmfCoeffs / 4096)
  let s1 := clampSample (dotProd d (alternate qmfCoeffs) / 4096)
  (s0, s1, ⟨d⟩)

/-- Modelled from the spec: predicted value from the current predictor
coefficients and histories (§4.1). -/
def predict (s : BandState) : Int :=
  (s.pole1 * hd0 s.reconHistory + s.pole2 * hd1 s.reconHistory) / 32768 +
    dotProd s.zeroCoeffs s.diffHistory / 32768

/-- Modelled from the spec: logarithmic quantization of a difference signal
using the current scale factor, into an integer code of the band's bit width
(§4.1). -/
def quantize (bits : Nat) (scale diff : Int) : Nat :=
  let step : Nat := (scale / 32).toNat + 1
  let half : Nat := 2 ^ (bits - 1)
  let mag : Nat := min (diff.natAbs / step) (half - 1)
  if diff < 0 then half + mag else mag

/-- Modelled from the spec: reverse quantization of a received code into an
approximate difference, using the same scale factor the encoder would have had
(§4.1). -/
def dequantize (bits : Nat) (scale : Int) (code : Nat) : Int :=
  let step : Nat := (scale / 32).toNat + 1
  let half : Nat := 2 ^ (bits - 1)
  let mag : Nat := code % half
  if half ≤ code then -((mag : Int) * step) else (mag : Int) * step

/-- Modelled from the spec: adaptive scale-factor step driven by the magnitude
class of the just-processed code — larger codes enlarge future step size,
small codes shrink it, bounded to a fixed logarithmic range (§4.1). -/
def adaptScale (bits : Nat) (scale : Int) (code : Nat) : Int :=
  let half : Nat := 2 ^ (bits - 1)
  let mag : Nat := code % half
  clampScale (scale + (if half ≤ 2 * mag + 1 then 96 else -24))

/-- Modelled from the spec: the shared post-sample state update of the missing
band coder — scale-factor adaptation, gradient-style predictor-coefficient
update from the sign of the recent difference history, and history shift; the
same update runs in both directions, which is what keeps encoder and decoder
synchronized (§4.1).  Returns the reconstructed value and the new state. -/
def bandUpdate (bits : Nat) (s : BandState) (code : Nat) (pred : Int) : Int × BandState :=
  let dq := dequantize bits s.scaleFactor code
  let recon := clampSample (pred + dq)
  let s2 : BandState :=
    { scaleFactor := adaptScale bits s.scaleFactor code
      pole1 := clampInt (-15360) 15360 (s.pole1 * 255 / 256 + 192 * sgn dq * sgn (hd0 s.diffHistory))
      pole2 := clampInt (-12288) 12288 (s.pole2 * 255 / 256 + 128 * sgn dq * sgn (hd1 s.diffHistory))
      zeroCoeffs := List.zipWith
        (fun z d => clampInt (-32768) 32767 (z * 255 / 256 + 128 * sgn dq * sgn d))
        s.zeroCoeffs s.diffHistory
      reconHistory := (recon :: s.reconHistory).take s.reconHistory.length
      diffHistory := (dq :: s.diffHistory).take s.diffHistory.length }
  (recon, s2)

/-- Modelled from the spec: `encode_sample` of the missing band coder —
predict, difference, quantize, emit the code, then run the shared state update
(§4.1). -/
def bandEncode (bits : Nat) (s : BandState) (x : Int) : Nat × BandState :=
  let p := predict s
  let code := quantize bits s.scaleFactor (x - p)
  (code, (bandUpdate bits s code p).2)

/-- Modelled from the spec: `decode_sample` of the missing band coder —
reverse-quantize the received code, add to the local prediction, run the same
shared state update as encoding (§4.1). -/
def bandDecode (bits : Nat) (s : BandState) (code : Nat) : Int × BandState :=
  bandUpdate bits s code (predict s)

/-- Modelled from the spec: `pack` of the missing bit packer — the high-band
code occupies the top 2 bits of the byte, the low-band code its mode-dependent
bit width at the bottom, and the unused bit positions of reduced-rate modes
are deterministically zero (§4.3). -/
def pack (low high bits : Nat) : Nat := high % 4 * 64 + low % 2 ^ bits

/-- Modelled from the spec: `unpack` of the missing bit packer — mask out the
low-band code's mode-dependent bit width and the fixed-position 2-bit
high-band code, ignoring the unused bit positions whatever their content
(§4.3). -/
def unpack (byte bits : Nat) : Nat × Nat := (byte % 2 ^ bits, byte / 64 % 4)

/-- Modelled from the spec: one processing step of the missing encoder core —
one consecutive PCM pair through the analysis filter bank, the two independent
band coders, and the bit packer, producing one output byte (§2, §4). -/
def encodeStep (ctx : EncCtx) (x0 x1 : Int) : Nat × EncCtx :=
  let r := qmfAnalyze ctx.filterBank x0 x1
  let lr := bandEncode ctx.bitsPerLowSample ctx.lowBand r.1
  let hr := bandEncode 2 ctx.highBand r.2.1
  (pack lr.1 hr.1 ctx.bitsPerLowSample,
    { ctx with lowBand := lr.2, highBand := hr.2, filterBank := r.2.2 })

/-- Modelled from the spec: one processing step of the missing decoder core —
unpack one byte into two codewords, decode each band, merge through the
synthesis filter bank into one PCM pair (§2, §4). -/
def decodeStep (ctx : DecCtx) (byte : Nat) : Int × Int × DecCtx :=
  let c := unpack byte ctx.bitsPerLowSample
  let lr := bandDecode ctx.bitsPerLowSample ctx.lowBand c.1
  let hr := bandDecode 2 ctx.highBand c.2
  let sr := qmfSynthesize ctx.filterBank lr.1 hr.1
  (sr.1, sr.2.1,
    { ctx with lowBand := lr.2, highBand := hr.2, filterBank := sr.2.2 })

/-- Consecutive sample pairs of a sample list; an odd leftover sample is not
consumed (§4.4). -/
def toPairs : List Int → List (Int × Int)
  | x0 :: x1 :: rest => (x0, x1) :: toPairs rest
  | _ => []

/-- Thread the encoder state through a list of sample pairs, collecting one
output byte per pair. -/
def encodePairs (ctx : EncCtx) : List (Int × Int) → EncCtx × List Nat
  | [] => (ctx, [])
  | p :: ps =>
    let r := encodeStep ctx p.1 p.2
    let rest := encodePairs r.2 ps
    (rest.1, r.1 :: rest.2)

/-- Modelled from the spec: `g722_encode` of the missing codec core —
processes the samples strictly in order in pairs, stateful across calls,
returning one byte per pair (§4.4).  The state-passing result carries the
final context and the bytes written. -/
def g722_encode (ctx : EncCtx) (samples : List Int) : EncCtx × List Nat :=
  encodePairs ctx (toPairs samples)

/-- Modelled from the spec: `g722_decode` of the missing codec core — each
input byte produces one reconstructed PCM pair, stateful across calls
(§4.4). -/
def g722_decode (ctx : DecCtx) : List Nat → DecCtx × List Int
  | [] => (ctx, [])
  | b :: bs =>
    let r := decodeStep ctx b
    let rest := g722_decode r.2.2 bs
    (rest.1, r.1 :: r.2.1 :: rest.2)

/-- Modelled from the spec: the rates supported at construction and the
low-band bit width each selects — 64000 → 6 bits, 56000 → 5 bits,
48000 → 4 bits (§3, §4.4). -/
def rateToBits (rate : Int) : Option Nat :=
  if rate = 64000 then some 6
  else if rate = 56000 then some 5
  else if rate = 48000 then some 4
  else none

/-- Modelled from the spec: the recognized packing-option values — the flag
selecting one of the two bit-ordering conventions (§3, §4.3, §6). -/
def recognizedOptions (options : Int) : Bool := options = 0 || options = 1

/-- Modelled from the spec: `g722_encoder_new` of the missing codec core —
validates the operating mode and packing option; an invalid combination fails
construction, returning no usable handle and creating no partial context
(§4.4, §7). -/
def g722_encoder_new (rate options : Int) : Option EncCtx :=
  match rateToBits rate with
  | some bits =>
    if recognizedOptions options then
      some { bitsPerLowSample := bits
             packingOptions := options
             lowBand := initBandState 6
             highBand := initBandState 2
             filterBank := ⟨List.replicate 12 0⟩ }
    else none
  | none => none

/-- Modelled from the spec: `g722_decoder_new` of the missing codec core,
with the same validation as the encoder constructor (§4.4, §7). -/
def g722_decoder_new (rate options : Int) : Option DecCtx :=
  match rateToBits rate with
  | some bits =>
    if recognizedOptions options then
      some { bitsPerLowSample := bits
             packingOptions := options
             lowBand := initBandState 6
             highBand := initBandState 2
             filterBank := ⟨List.replicate 12 0⟩ }
    else none
  | none => none

/-! The emscripten shim, translated from `src/native/g722/g722_wasm_shim.c`.
Null pointers are modelled as `none` (for the context handle and the input
buffer) and as `false` (for the output pointer); the result triple carries the
C return value, the context state after the call, and the bytes or samples
stored through the output pointer. -/

/-- `g722_wasm_encode` from `g722_wasm_shim.c`: if the context, the input
pointer or the output pointer is null, return -1 without invoking the codec;
otherwise forward to `g722_encode`. -/
def g722_wasm_encode (ctx : Option EncCtx) (amp : Option (List Int)) (outOk : Bool) :
    Int × Option EncCtx × List Nat :=
  match ctx, amp, outOk with
  | some c, some a, true =>
    let r := g722_encode c a
    ((r.2.length : Int), some r.1, r.2)
  | c, _, _ => (-1, c, [])

/-- `g722_wasm_decode` from `g722_wasm_shim.c`: the same null guards around
`g722_decode`. -/
def g722_wasm_decode (ctx : Option DecCtx) (data : Option (List Nat)) (outOk : Bool) :
    Int × Option DecCtx × List Int :=
  match ctx, data, outOk with
  | some c, some d, true =>
    let r := g722_decode c d
    ((r.2.length : Int), some r.1, r.2)
  | c, _, _ => (-1, c, [])

/-- `g722_wasm_enc_destroy` from `g722_wasm_shim.c`: returns whether the
underlying `g722_encoder_destroy` was invoked — only on a non-null handle. -/
def g722_wasm_enc_destroy (ctx : Option EncCtx) : Bool :=
  match ctx with
  | none => false
  | some _ => true

/-- `g722_wasm_dec_destroy` from `g722_wasm_shim.c`: returns whether the
underlying `g722_decoder_destroy` was invoked — only on a non-null handle. -/
def g722_wasm_dec_destroy (ctx : Option DecCtx) : Bool :=
  match ctx with
  | none => false
  | some _ => true

/-! The Node N-API addon, translated from `src/native/g722_addon.cpp`. -/

/-- A JavaScript argument as seen by the addon: a PCM (int16) buffer, a
compressed-byte buffer, or any non-buffer value. -/
inductive NapiValue
  | pcmBuffer (samples : List Int)
  | byteBuffer (bytes : List Nat)
  | other
deriving DecidableEq

/-- `G722Wrapper::G722Wrapper` from `g722_addon.cpp`: whatever arguments the
constructor receives, it builds its encoder and decoder contexts with rate
64000 and options 0, and throws when either construction fails.  The result
carries both contexts and whether an exception was thrown. -/
def g722WrapperNew (_info : List NapiValue) : (Option EncCtx × Option DecCtx) × Bool :=
  let e := g722_encoder_new 64000 0
  let d := g722_decoder_new 64000 0
  ((e, d), e.isNone || d.isNone)

/-- `G722Wrapper::Init` from `g722_addon.cpp`: the instance methods the addon
exposes on its `G722` class — only `encode` and `decode`, each taking a single
buffer and no mode or option parameter. -/
def g722AddonInstanceMethods : List String := ["encode", "decode"]

/-- `G722Wrapper::Encode` from `g722_addon.cpp`: require exactly one buffer
argument, allocate `num_samples / 2` output bytes, run `g722_encode`, and
throw (returning null) if the codec reports any other byte count. -/
def addonEncode (enc : EncCtx) (info : List NapiValue) :
    EncCtx × Except String (List Nat) :=
  match info with
  | [NapiValue.pcmBuffer samples] =>
    let outLen := samples.length / 2
    let r := g722_encode enc samples
    if r.2.length ≠ outLen then (r.1, Except.error "G.722 encoding failed")
    else (r.1, Except.ok r.2)
  | _ => (enc, Except.error "PCM buffer expected")

/-- `G722Wrapper::Decode` from `g722_addon.cpp`: require exactly one buffer
argument, allocate `input_len * 2` output samples, run `g722_decode`, and
throw (returning null) if the codec reports any other sample count. -/
def addonDecode (dec : DecCtx) (info : List NapiValue) :
    DecCtx × Except String (List Int) :=
  match info with
  | [NapiValue.byteBuffer bytes] =>
    let outLen := bytes.length * 2
    let r := g722_decode dec bytes
    if r.2.length ≠ outLen then (r.1, Except.error "G.722 decoding failed")
    else (r.1, Except.ok r.2)
  | _ => (dec, Except.error "G.722 buffer expected")

/-- Chunked encoding: feed a list of sample chunks to one context in order,
concatenating the outputs (§8, state continuity). -/
def encodeChunks (ctx : EncCtx) : List (List Int) → EncCtx × List Nat
  | [] => (ctx, [])
  | c :: cs =>
    let r := g722_encode ctx c
    let rest := encodeChunks r.1 cs
    (rest.1, r.2 ++ rest.2)

/-- The encoder context the addon builds: rate 64000, options 0. -/
def encCtx64 : EncCtx :=
  { bitsPerLowSample := 6
    packingOptions := 0
    lowBand := initBandState 6
    highBand := initBandState 2
    filterBank := ⟨List.replicate 12 0⟩ }

/-- The decoder context the addon builds: rate 64000, options 0. -/
def decCtx64 : DecCtx :=
  { bitsPerLowSample := 6
    packingOptions := 0
    lowBand := initBandState 6
    highBand := initBandState 2
    filterBank := ⟨List.replicate 12 0⟩ }

/-! Structural lemmas about the pair-wise encoder recursion. -/

theorem toPairs_length : ∀ xs : List Int, (toPairs xs).length = xs.length / 2
  | [] => rfl
  | [_] => by simp [toPairs]
  | _ :: _ :: rest => by
    simp only [toPairs, List.length_cons, toPairs_length rest]
    omega

theorem encodePairs_length (ps : List (Int × Int)) :
    ∀ ctx : EncCtx, (encodePairs ctx ps).2.length = ps.length := by
  induction ps with
  | nil => intro ctx; rfl
  | cons p ps ih =>
    intro ctx
    simp only [encodePairs, List.length_cons, ih]

theorem g722_encode_length (ctx : EncCtx) (samples : List Int) :
    (g722_encode ctx samples).2.length = samples.length / 2 := by
  simp only [g722_encode, encodePairs_length, toPairs_length]

theorem g722_decode_length : ∀ (bytes : List Nat) (ctx : DecCtx),
    (g722_decode ctx bytes).2.length = 2 * bytes.length
  | [], _ => rfl
  | b :: bs, ctx => by
    simp only [g722_decode, List.length_cons, g722_decode_length bs]
    ring

theorem toPairs_append : ∀ (a b : List Int), a.length % 2 = 0 →
    toPairs (a ++ b) = toPairs a ++ toPairs b
  | [], _, _ => rfl
  | [_], _, h => by simp at h
  | x0 :: x1 :: rest, b, h => by
    have hr : rest.length % 2 = 0 := by
      simp only [List.length_cons] at h
      omega
    simp only [List.cons_append, toPairs, List.append_eq, toPairs_append rest b hr]

theorem encodePairs_append (ps : List (Int × Int)) :
    ∀ (qs : List (Int × Int)) (ctx : EncCtx),
      encodePairs ctx (ps ++ qs) =
        ((encodePairs (encodePairs ctx ps).1 qs).1,
          (encodePairs ctx ps).2 ++ (encodePairs (encodePairs ctx ps).1 qs).2) := by
  induction ps with
  | nil => intro qs ctx; rfl
  | cons p ps ih =>
    intro qs ctx
    simp only [List.cons_append, encodePairs, List.append_eq, ih, List.nil_append]

theorem g722_encode_append (a b : List Int) (ctx : EncCtx) (ha : Even a.length) :
    g722_encode ctx (a ++ b) =
      ((g722_encode (g722_encode ctx a).1 b).1,
        (g722_encode ctx a).2 ++ (g722_encode (g722_encode ctx a).1 b).2) := by
  have h2 : a.length % 2 = 0 := Nat.even_iff.mp ha
  simp only [g722_encode, toPairs_append a b h2, encodePairs_append]

/-- Claim C1: for every encoder context and sample list, `g722_encode` returns
exactly `count / 2` bytes (integer division), and for every decoder context
and byte list, `g722_decode` returns exactly `2 * count` samples. -/
theorem length_contract (ectx : EncCtx) (samples : List Int) (dctx : DecCtx) (bytes : List Nat) :
    (g722_encode ectx samples).2.length = samples.length / 2 ∧
    (g722_decode dctx bytes).2.length = 2 * bytes.length :=
  ⟨g722_encode_length ectx samples, g722_decode_length bytes dctx⟩

/-- Claim C2: whenever the context handle, the input pointer or the output
pointer of a shim encode/decode call is null, the call returns -1, the context
state is unchanged, and nothing is written — the codec is never invoked. -/
theorem null_guard_sentinel (ectx : Option EncCtx) (amp : Option (List Int)) (outOk : Bool)
    (dctx : Option DecCtx) (data : Option (List Nat)) (outOk2 : Bool)
    (h1 : ectx = none ∨ amp = none ∨ outOk = false)
    (h2 : dctx = none ∨ data = none ∨ outOk2 = false) :
    g722_wasm_encode ectx amp outOk = (-1, ectx, []) ∧
    g722_wasm_decode dctx data outOk2 = (-1, dctx, []) := by
  constructor
  · rcases h1 with h | h | h
    · subst h; cases amp <;> cases outOk <;> rfl
    · subst h; cases ectx <;> cases outOk <;> rfl
    · subst h; cases ectx <;> cases amp <;> rfl
  · rcases h2 with h | h | h
    · subst h; cases data <;> cases outOk2 <;> rfl
    · subst h; cases dctx <;> cases outOk2 <;> rfl
    · subst h; cases dctx <;> cases data <;> rfl

/-- Witness for C2 at a null context handle on both paths. -/
theorem null_guard_sentinel_witness :
    g722_wasm_encode none (some [7]) true = (-1, none, []) ∧
    g722_wasm_decode none (some [7]) true = (-1, none, []) :=
  null_guard_sentinel none (some [7]) true none (some [7]) true
    (Or.inl rfl) (Or.inl rfl)

/-- Claim C3: encoding an even-length sample stream split into consecutive
chunks of even lengths, threading one context through the calls in order,
yields output byte-identical to encoding the whole stream in a single call
from the same initial context. -/
theorem chunk_independence (chunks : List (List Int)) (ctx : EncCtx)
    (h : ∀ c ∈ chunks, Even c.length) :
    encodeChunks ctx chunks = g722_encode ctx chunks.flatten := by
  induction chunks generalizing ctx with
  | nil => rfl
  | cons c cs ih =>
    have hc : Even c.length := h c (by simp)
    have hcs : ∀ x ∈ cs, Even x.length := fun x hx => h x (by simp [hx])
    simp only [encodeChunks, List.flatten_cons]
    rw [g722_encode_append c cs.flatten ctx hc, ih (g722_encode ctx c).1 hcs]

/-- Witness for C3: a two-chunk split of a four-sample stream. -/
theorem chunk_independence_witness :
    (∀ c ∈ ([[0, 1000], [-1000, 500]] : List (List Int)), Even c.length) ∧
    encodeChunks encCtx64 [[0, 1000], [-1000, 500]] =
      g722_encode encCtx64 ([[0, 1000], [-1000, 500]] : List (List Int)).flatten :=
  ⟨by decide, chunk_independence [[0, 1000], [-1000, 500]] encCtx64 (by decide)⟩

/-- Claim C4: encode and decode are pure functions of context state plus
input — two calls from identical state on identical input produce identical
output and identical resulting state. -/
theorem determinism (e1 e2 : EncCtx) (i1 i2 : List Int)
    (d1 d2 : DecCtx) (b1 b2 : List Nat)
    (he : e1 = e2) (hi : i1 = i2) (hd : d1 = d2) (hb : b1 = b2) :
    g722_encode e1 i1 = g722_encode e2 i2 ∧
    g722_decode d1 b1 = g722_decode d2 b2 := by
  subst he; subst hi; subst hd; subst hb
  exact ⟨rfl, rfl⟩

/-- Witness for C4 on concrete identical states and inputs. -/
theorem determinism_witness :
    g722_encode encCtx64 [0, 1000] = g722_encode encCtx64 [0, 1000] ∧
    g722_decode decCtx64 [5] = g722_decode decCtx64 [5] :=
  determinism encCtx64 encCtx64 [0, 1000] [0, 1000] decCtx64 decCtx64 [5] [5]
    rfl rfl rfl rfl

/-- Claim C5: at the reduced-rate modes (5- or 4-bit low band), `pack` leaves
deterministic zeros in the bit positions between the low-band code and the
fixed-position high-band code, `unpack` masks those positions out whatever
junk they hold, and the recovered high-band code depends only on the top two
bits of the byte, never on the discarded low-band bits. -/
theorem rate_masking (bits low high junk b b2 : Nat)
    (hbits : bits = 5 ∨ bits = 4)
    (hjunk : junk < 2 ^ (6 - bits))
    (hb : b / 64 = b2 / 64) :
    pack low high bits / 2 ^ bits % 2 ^ (6 - bits) = 0 ∧
    unpack (low % 2 ^ bits + junk * 2 ^ bits + high % 4 * 64) bits =
      (low % 2 ^ bits, high % 4) ∧
    (unpack b bits).2 = (unpack b2 bits).2 := by
  rcases hbits with h | h <;> subst h <;>
    simp only [pack, unpack, Prod.mk.injEq] <;>
    norm_num at hjunk ⊢ <;>
    refine ⟨by omega, ⟨by omega, by omega⟩, by omega⟩

/-- Witness for C5 at the 56 kbps mode with nonzero junk in the unused bit. -/
theorem rate_masking_witness :
    pack 17 2 5 / 2 ^ 5 % 2 ^ (6 - 5) = 0 ∧
    unpack (17 % 2 ^ 5 + 1 * 2 ^ 5 + 2 % 4 * 64) 5 = (17 % 2 ^ 5, 2 % 4) ∧
    (unpack 131 5).2 = (unpack 159 5).2 :=
  rate_masking 5 17 2 1 131 159 (Or.inl rfl) (by norm_num) (by norm_num)

/-- Claim C6: construction succeeds exactly when the rate is one of the three
supported values and the packing option is recognized; every invalid
combination yields no context at all, for both the encoder and the decoder
constructors. -/
theorem construction_validation (rate options : Int) :
    ((g722_encoder_new rate options).isSome ↔
      ((rate = 64000 ∨ rate = 56000 ∨ rate = 48000) ∧ recognizedOptions options = true)) ∧
    ((g722_decoder_new rate options).isSome ↔
      ((rate = 64000 ∨ rate = 56000 ∨ rate = 48000) ∧ recognizedOptions options = true)) := by
  by_cases h64 : rate = 64000 <;> by_cases h56 : rate = 56000 <;>
    by_cases h48 : rate = 48000 <;> by_cases hopt : recognizedOptions options = true <;>
    simp [g722_encoder_new, g722_decoder_new, rateToBits, h64, h56, h48, hopt]

/-- Claim C7: with a valid context, non-null buffers and zero input length,
the shim encode and decode calls return 0, write nothing, and leave every
field of the context state unchanged. -/
theorem zero_count_no_mutation (e : EncCtx) (d : DecCtx) :
    g722_wasm_encode (some e) (some []) true = (0, some e, []) ∧
    g722_wasm_decode (some d) (some []) true = (0, some d, []) :=
  ⟨rfl, rfl⟩

/-- Claim C8: destroying a null handle is a safe no-op for both the encoder
and the decoder destroy entry points — the call returns normally and the
underlying destroy is never invoked. -/
theorem destroy_null_noop :
    g722_wasm_enc_destroy none = false ∧ g722_wasm_dec_destroy none = false :=
  ⟨rfl, rfl⟩

/-- Claim C9: whatever arguments the addon constructor receives, it builds its
encoder and decoder with rate 64000 and options 0 (successfully, throwing
nothing), its result does not depend on the arguments, and the class exposes
only the `encode` and `decode` instance methods — no mode or packing
parameter. -/
theorem addon_fixed_mode (args : List NapiValue) :
    g722WrapperNew args = ((g722_encoder_new 64000 0, g722_decoder_new 64000 0), false) ∧
    g722WrapperNew args = g722WrapperNew [] ∧
    g722_encoder_new 64000 0 = some encCtx64 ∧
    g722_decoder_new 64000 0 = some decCtx64 ∧
    g722AddonInstanceMethods = ["encode", "decode"] :=
  ⟨rfl, rfl, rfl, rfl, rfl⟩

/-- Claim C10: on a buffer argument the addon's Encode returns a byte buffer
of length exactly `n / 2` for `n` input samples and Decode returns a sample
buffer of length exactly `2 * m` for `m` input bytes (the codec never reports
a different count, so the throw branch never fires); on a non-buffer argument
both throw and return null. -/
theorem addon_length_or_throw (enc : EncCtx) (dec : DecCtx)
    (samples : List Int) (bytes : List Nat) :
    (∃ bs, (addonEncode enc [NapiValue.pcmBuffer samples]).2 = Except.ok bs ∧
      bs.length = samples.length / 2) ∧
    (∃ ss, (addonDecode dec [NapiValue.byteBuffer bytes]).2 = Except.ok ss ∧
      ss.length = 2 * bytes.length) ∧
    (addonEncode enc [NapiValue.other]).2 = Except.error "PCM buffer expected" ∧
    (addonDecode dec [NapiValue.other]).2 = Except.error "G.722 buffer expected" := by
  refine ⟨?_, ?_, rfl, rfl⟩
  · refine ⟨(g722_encode enc samples).2, ?_, g722_encode_length enc samples⟩
    simp only [addonEncode, g722_encode_length, ne_eq, not_true_eq_false, ite_false,
      if_neg, reduceIte]
  · refine ⟨(g722_decode dec bytes).2, ?_, g722_decode_length bytes dec⟩
    have hlen : (g722_decode dec bytes).2.length = bytes.length * 2 := by
      rw [g722_decode_length]; ring
    simp only [addonDecode, hlen, ne_eq, not_true_eq_false, ite_false, if_neg, reduceIte]

end G722
